import Mathlib

/-!
A verification development for the `py_core` scheduling core: a shallow
embedding of the meeting data model (`classes/meeting_class.py`), the
weekday-set codecs (`general.py`), the pairwise and schedule-level conflict
detectors, and the course preference scorer
(`classes/optimizer_criteria_class.py`), together with theorems settling the
stated properties of that code.

Modelling conventions:
- `datetime.date` is modelled by its proleptic ordinal (`ℤ`, as returned by
  `date.toordinal()`); `date(1, 1, 1)` is ordinal `1` and is a Monday, so
  `weekday()` is `(ordinal - 1) % 7` with `0 = Monday … 6 = Sunday`.
- `datetime.time` is modelled by microseconds since midnight (`ℕ`);
  `time.min` is `0`, `time.max` is `86399999999`.
- `datetime.combine(d, time.min).timestamp()` and the slope/intercept float
  arithmetic of `meeting_conflict` are modelled exactly over `ℚ`, a timestamp
  being `86400 * ordinal` seconds (UTC); a returned `datetime` is represented
  by its timestamp in the same convention.
- Python exceptions are modelled with `Except PyErr`; pydantic wraps the
  `ValueError`/`TypeError` raised inside a `root_validator` into a
  construction failure, which the model reports as the same `PyErr`.
-/

/-- The Python exception kinds the embedded code can raise. -/
inductive PyErr where
  | valueError
  | typeError
  | zeroDivisionError
  | attributeError
  deriving DecidableEq, Repr

namespace PyCore

/-! ### `constants.py`: weekday bitmask constants -/

def MONDAY : ℕ := 0b0000001
def TUESDAY : ℕ := 0b0000010
def WEDNESDAY : ℕ := 0b0000100
def THURSDAY : ℕ := 0b0001000
def FRIDAY : ℕ := 0b0010000
def SATURDAY : ℕ := 0b0100000
def SUNDAY : ℕ := 0b1000000

/-! ### `general.py`: weekday-set codecs -/

/-- A `dict[str, bool]` assigning a boolean to each of the seven weekday
names, the input/output type of `encode_days_of_week`/`decode_days_of_week`
(Python dict equality ignores key order, so a record of the seven values is a
faithful model). -/
structure DaysOfWeekDict where
  monday : Bool
  tuesday : Bool
  wednesday : Bool
  thursday : Bool
  friday : Bool
  saturday : Bool
  sunday : Bool
  deriving DecidableEq, Repr

/-- `general.encode_days_of_week`. -/
def encode_days_of_week (data : DaysOfWeekDict) : ℕ :=
  let value : ℕ := 0
  let value := if data.monday then value ||| MONDAY else value
  let value := if data.tuesday then value ||| TUESDAY else value
  let value := if data.wednesday then value ||| WEDNESDAY else value
  let value := if data.thursday then value ||| THURSDAY else value
  let value := if data.friday then value ||| FRIDAY else value
  let value := if data.saturday then value ||| SATURDAY else value
  let value := if data.sunday then value ||| SUNDAY else value
  value

/-- `general.decode_days_of_week` (on an `int` argument; the `None` passthrough
is not modelled since every call site of interest passes an `int`). -/
def decode_days_of_week (value : ℕ) : DaysOfWeekDict where
  monday := value &&& MONDAY != 0
  tuesday := value &&& TUESDAY != 0
  wednesday := value &&& WEDNESDAY != 0
  thursday := value &&& THURSDAY != 0
  friday := value &&& FRIDAY != 0
  saturday := value &&& SATURDAY != 0
  sunday := value &&& SUNDAY != 0

/-- `general.encode_weekday_ints`. -/
def encode_weekday_ints (data : List ℕ) : ℕ :=
  let value : ℕ := 0
  let value := if data.contains 0 then value ||| MONDAY else value
  let value := if data.contains 1 then value ||| TUESDAY else value
  let value := if data.contains 2 then value ||| WEDNESDAY else value
  let value := if data.contains 3 then value ||| THURSDAY else value
  let value := if data.contains 4 then value ||| FRIDAY else value
  let value := if data.contains 5 then value ||| SATURDAY else value
  let value := if data.contains 6 then value ||| SUNDAY else value
  value

/-- `general.decode_weekday_ints` (on an `int` argument): appends the weekday
indices whose bit is set, in ascending order. -/
def decode_weekday_ints (value : ℕ) : List ℕ :=
  (if value &&& MONDAY != 0 then [0] else []) ++
  (if value &&& TUESDAY != 0 then [1] else []) ++
  (if value &&& WEDNESDAY != 0 then [2] else []) ++
  (if value &&& THURSDAY != 0 then [3] else []) ++
  (if value &&& FRIDAY != 0 then [4] else []) ++
  (if value &&& SATURDAY != 0 then [5] else []) ++
  (if value &&& SUNDAY != 0 then [6] else [])

/-! ### Dates and times -/

/-- `datetime.date.weekday()` on the ordinal model: `0 = Monday … 6 = Sunday`
(`date(1, 1, 1)`, ordinal `1`, is a Monday). -/
def weekdayOf (d : ℤ) : ℤ := (d - 1) % 7

/-- `meeting_class.forward_weekday_target`: first date on or after `base_date`
whose weekday is `target_weekday_int`. -/
def forward_weekday_target (target_weekday_int : ℤ) (base_date : ℤ) : ℤ :=
  let target_delta_int := target_weekday_int - weekdayOf base_date
  let target_delta_int :=
    if target_delta_int < 0 then target_delta_int + 7 else target_delta_int
  base_date + target_delta_int

/-- `meeting_class.backward_target_weekday`: last date on or before `base_date`
whose weekday is `target_weekday_int`. -/
def backward_target_weekday (target_weekday_int : ℤ) (base_date : ℤ) : ℤ :=
  let target_delta_int := target_weekday_int - weekdayOf base_date
  let target_delta_int :=
    if target_delta_int > 0 then target_delta_int - 7 else target_delta_int
  base_date + target_delta_int

/-- `time.max` in microseconds: `23:59:59.999999`. -/
def timeMax : ℕ := 86399999999

/-! ### The `Meeting` value type (`classes/meeting_class.py`) -/

/-- The field values of a `Meeting` (`time_start`/`time_end` in microseconds
since midnight, dates as ordinals, `days_of_week` a weekday bitmask,
`repeat_timedelta_days` the repeat interval in days, `0` = non-repeating). -/
structure Meeting where
  time_start : ℕ := 0
  time_end : ℕ := timeMax
  days_of_week : ℕ
  date_start : ℤ
  date_end : ℤ
  repeat_timedelta_days : ℕ := 0
  location : Option String := none
  deriving DecidableEq, Repr

/-- `Meeting.decode_days_of_week`. -/
def Meeting.decodeDaysOfWeek (m : Meeting) : DaysOfWeekDict :=
  decode_days_of_week m.days_of_week

/-- The list produced by `.values()` on the decoded weekday dict, in
dict-insertion order `monday … sunday`. -/
def DaysOfWeekDict.valuesList (d : DaysOfWeekDict) : List Bool :=
  [d.monday, d.tuesday, d.wednesday, d.thursday, d.friday, d.saturday, d.sunday]

/-- The weekday indices `i` with `decode_days_of_week().values()[i] = True`,
as iterated by `enumerate(...)` in `get_actual_date_start`/`_end`. -/
def Meeting.weekdayIdxs (m : Meeting) : List ℕ :=
  (m.decodeDaysOfWeek.valuesList.enum.filter (fun p => p.2)).map (fun p => p.1)

/-- `Meeting.get_actual_date_start`: `min` of the forward-shifted dates of the
set weekdays; `none` models the `ValueError` that `min([])` raises when no
weekday bit in `0…6` is set. -/
def Meeting.getActualDateStart? (m : Meeting) : Option ℤ :=
  ((m.weekdayIdxs.map (fun i => forward_weekday_target i m.date_start))).min?

/-- `Meeting.get_actual_date_end`: `max` of the backward-shifted dates of the
set weekdays; `none` models the `ValueError` raised by `max([])`. -/
def Meeting.getActualDateEnd? (m : Meeting) : Option ℤ :=
  ((m.weekdayIdxs.map (fun i => backward_target_weekday i m.date_end))).max?

/-- `Meeting.num_actual_meetings`: occurrence count of the meeting
(`span // repeat + 1` for a repeating meeting, `1` otherwise). `//` is
Python floor division, `Int.fdiv`. -/
def Meeting.numActualMeetings (m : Meeting) : Except PyErr ℤ :=
  if m.repeat_timedelta_days > 0 then
    match m.getActualDateEnd?, m.getActualDateStart? with
    | some e, some s => .ok ((e - s).fdiv m.repeat_timedelta_days + 1)
    | _, _ => .error .valueError
  else .ok 1

/-! ### The `Meeting` constructor

pydantic runs the four `root_validator`s in declaration order and fails on the
first one that raises.  `verify_valid_weekday_int` reads
`values.get("weekday_int")`: the model has no field of that name (the field is
`days_of_week`), so the lookup always yields `None`, which the model makes
explicit below. -/

/-- The `Meeting(...)` construction: field assignment followed by the four
`root_validator`s of `classes/meeting_class.py`. -/
def mkMeeting (time_start : ℕ) (time_end : ℕ) (days_of_week : ℕ)
    (date_start : ℤ) (date_end : ℤ) (repeat_timedelta_days : ℕ)
    (location : Option String) : Except PyErr Meeting :=
  -- verify_valid_time
  if ¬ (time_start < time_end) then .error .valueError
  -- verify_valid_date
  else if ¬ (date_start ≤ date_end) then .error .valueError
  -- verify_allowed_repeat_timedelta_days
  else if ¬ (repeat_timedelta_days ∈ [0, 7, 14, 28, 56]) then .error .valueError
  else
    -- verify_valid_weekday_int: `weekday_int = values.get("weekday_int")` —
    -- no field of that name exists on the model, so the lookup is always
    -- `None`, written `(none : Option ℤ)` below.
    if repeat_timedelta_days = 0 ∧ some (weekdayOf date_start) ≠ (none : Option ℤ) then
      .error .valueError
    else
      match (none : Option ℤ) with
      | none =>
        -- forward_weekday_target(target_weekday_int=None, ...) evaluates
        -- `None - base_date.weekday()`, a TypeError.
        .error .typeError
      | some w =>
        let shifted_date := forward_weekday_target w date_start
        if ¬ (date_start ≤ shifted_date ∧ shifted_date ≤ date_end) then
          .error .valueError
        else
          .ok { time_start := time_start, time_end := time_end,
                days_of_week := days_of_week, date_start := date_start,
                date_end := date_end,
                repeat_timedelta_days := repeat_timedelta_days,
                location := location }

/-! ### Pairwise conflict detection (`meeting_class.meeting_conflict`)

`meeting_conflict` first tests the time-of-day axis with four boundary
comparisons; on the date axis it represents each meeting as a line in the
`(repeat_timedelta_days, timestamp)` plane and intersects the two lines.  The
float timestamps/slopes are modelled exactly over `ℚ`; a timestamp of a date
ordinal `d` at `time.min` is `86400 * d`.  The function is modelled in its
`detailed=True` shape `(bool, datetime?)`; `detailed=False` only drops the
second component (`meetingConflictB`). -/

/-- The time-axis test of `meeting_conflict` (the four chained comparisons). -/
def timeConflictCond (mt_1 mt_2 : Meeting) : Prop :=
  (mt_1.time_start ≤ mt_2.time_start ∧ mt_2.time_start < mt_1.time_end) ∨
  (mt_1.time_start < mt_2.time_end ∧ mt_2.time_end ≤ mt_1.time_end) ∨
  (mt_2.time_start ≤ mt_1.time_start ∧ mt_1.time_start < mt_2.time_end) ∨
  (mt_2.time_start < mt_1.time_end ∧ mt_1.time_end ≤ mt_2.time_end)

instance (mt_1 mt_2 : Meeting) : Decidable (timeConflictCond mt_1 mt_2) := by
  unfold timeConflictCond; infer_instance

/-- Timestamp (seconds) of `datetime.combine(date, time.min)` for ordinal
`d`: these floats are integer-valued (multiples of a day), so the model keeps
them in `ℤ`. -/
def dateTs (d : ℤ) : ℤ := 86400 * d

/-- Timestamp (seconds) of `datetime.combine(date, time)` with `t` in
microseconds since midnight. -/
def combineTs (d : ℤ) (t : ℕ) : ℚ := ((dateTs d : ℤ) : ℚ) + (t : ℚ) / 1000000

/-- `poi_x % n == 0` for a float `poi_x` and a positive int `n`: exact
divisibility of the rational by `n`. -/
def floatModZero (poi_x : ℚ) (n : ℕ) : Prop := (poi_x / (n : ℚ)).den = 1

instance (poi_x : ℚ) (n : ℕ) : Decidable (floatModZero poi_x n) := by
  unfold floatModZero; infer_instance

/-- `__is_valid_date_intersection` for one meeting: the timestamp the meeting
has at `poi_x`, or `none` when `poi_x` is not a multiple of its repeat
interval (the enclosing check then returns `False`). -/
def intersectionTs (repeat_td : ℕ) (actual_start : ℤ) (poi_x : ℚ) : Option ℚ :=
  if repeat_td = 0 then some ((dateTs actual_start : ℤ) : ℚ)
  else if floatModZero poi_x repeat_td then
    some (((dateTs actual_start : ℤ) : ℚ) + poi_x * 86400)
  else none

/-- `meeting_conflict.__is_valid_date_intersection(poi_x, poi_y)`. -/
def isValidDateIntersection (mt_1 mt_2 : Meeting) (a1s a2s : ℤ)
    (poi_x poi_y : ℚ) : Bool :=
  match intersectionTs mt_1.repeat_timedelta_days a1s poi_x,
        intersectionTs mt_2.repeat_timedelta_days a2s poi_x with
  | some ts_1, some ts_2 => decide (poi_y = ts_1 ∧ ts_1 = ts_2)
  | _, _ => false

/-- The two-line intersection test at the end of `meeting_conflict` (run with
the possibly adjusted `x` coordinates).  The coordinates `x1…x4` (day
offsets) and `y1…y4` (timestamps) are Python ints / integer-valued floats,
kept in `ℤ`; slopes, intercepts and the intersection point are genuine float
quantities, modelled exactly in `ℚ`.  Python raises `ZeroDivisionError` at
whichever of `m1`, `m2` divides by zero first; the model raises the same
error under the disjunction of the two conditions. -/
def lineTest (mt_1 mt_2 : Meeting) (a1s a2s : ℤ)
    (x1 x2 x3 x4 y1 y2 y3 y4 : ℤ) : Except PyErr (Bool × Option ℚ) :=
  if x2 - x1 = 0 ∨ x4 - x3 = 0 then .error .zeroDivisionError
  else
    let m1 : ℚ := ((y2 - y1 : ℤ) : ℚ) / ((x2 - x1 : ℤ) : ℚ)
    let b1 : ℚ := (y1 : ℚ) - m1 * (x1 : ℚ)
    let m2 : ℚ := ((y4 - y3 : ℤ) : ℚ) / ((x4 - x3 : ℤ) : ℚ)
    let b2 : ℚ := (y3 : ℚ) - m2 * (x3 : ℚ)
    if m1 = m2 then
      -- 2 parallel lines: conflict (with no datetime) iff overlapping.
      if b1 = b2 then .ok (true, none) else .ok (false, none)
    else
      let x : ℚ := (b2 - b1) / (m1 - m2)
      if ¬ (x < ((min x1 x2 : ℤ) : ℚ) ∨ x > ((max x1 x2 : ℤ) : ℚ) ∨
          x < ((min x3 x4 : ℤ) : ℚ) ∨ x > ((max x3 x4 : ℤ) : ℚ)) then
        let y : ℚ := (y1 : ℚ) +
          (((y2 - y1 : ℤ) : ℚ) / ((x2 - x1 : ℤ) : ℚ)) * (x - (x1 : ℚ))
        if isValidDateIntersection mt_1 mt_2 a1s a2s x y then
          .ok (true, some y)
        else .ok (false, none)
      else .ok (false, none)

/-- The date-axis part of `meeting_conflict`, after the four actual start/end
ordinals have been obtained. -/
def conflictCore (mt_1 mt_2 : Meeting) (a1s a1e a2s a2e : ℤ) :
    Except PyErr (Bool × Option ℚ) :=
  let y1 := dateTs a1s
  let y2 := dateTs a1e
  let y3 := dateTs a2s
  let y4 := dateTs a2e
  let x1 : ℤ := 0
  let x2 : ℤ := a1e - a1s
  let x3 : ℤ := 0
  let x4 : ℤ := a2e - a2s
  if mt_1.repeat_timedelta_days = 0 ∧ mt_2.repeat_timedelta_days = 0 then
    -- 2 no-repeat meetings -> 2 point match test.
    if y1 = y2 ∧ y2 = y3 ∧ y3 = y4 then
      .ok (true, some (combineTs a1s (max mt_1.time_start mt_2.time_start)))
    else .ok (false, none)
  else if mt_1.repeat_timedelta_days = 0 ∧ y1 = y2 then
    -- Convert the no-repeat mt_1 to a horizontal line.
    lineTest mt_1 mt_2 a1s a2s x1 (max x3 x4) x3 x4 y1 y2 y3 y4
  else if mt_2.repeat_timedelta_days = 0 ∧ y3 = y4 then
    -- Convert the no-repeat mt_2 to a horizontal line.
    lineTest mt_1 mt_2 a1s a2s x1 x2 x3 (max x1 x2) y1 y2 y3 y4
  else
    lineTest mt_1 mt_2 a1s a2s x1 x2 x3 x4 y1 y2 y3 y4

/-- `meeting_class.meeting_conflict(mt_1, mt_2, detailed=True)`: conflict flag
plus the conflicting datetime (as a `ℚ` timestamp).  Errors: `ValueError`
when a meeting's decoded weekday set is empty (`min([])`/`max([])`),
`ZeroDivisionError` from the slope computations. -/
def meeting_conflict (mt_1 mt_2 : Meeting) : Except PyErr (Bool × Option ℚ) :=
  if ¬ timeConflictCond mt_1 mt_2 then .ok (false, none)
  else
    match mt_1.getActualDateStart?, mt_1.getActualDateEnd?,
          mt_2.getActualDateStart?, mt_2.getActualDateEnd? with
    | some a1s, some a1e, some a2s, some a2e =>
      conflictCore mt_1 mt_2 a1s a1e a2s a2e
    | _, _, _, _ => .error .valueError

/-- `meeting_conflict(mt_1, mt_2)` with `detailed=False`: same computation,
boolean result only. -/
def meetingConflictB (mt_1 mt_2 : Meeting) : Except PyErr Bool :=
  (meeting_conflict mt_1 mt_2).map (fun r => r.1)

/-! ### Schedule-level conflict detection (`meetings_are_time_valid`)

The function groups the meetings into seven weekday buckets, sorts a bucket by
`(get_actual_date_start(), time_start, time_end)` only when it holds at least
three meetings, and walks adjacent pairs with `meeting_conflict(…,
detailed=True)`; the first conflicting pair determines the result. -/

/-- `get_actual_date_start` as used in the sort key.  Inside a weekday bucket
the weekday set is never empty, so the `ValueError` case of `min([])` cannot
occur there; the default `0` is never reached on bucket members. -/
def Meeting.actualDateStartD (m : Meeting) : ℤ :=
  m.getActualDateStart?.getD 0

/-- Python's `list.sort` is a stable sort; a stable sort by a fixed key has a
unique possible output, so the model computes it with a structural insertion
sort (stable because an element is inserted before the later elements whose
key ties with its own). -/
def orderedInsert (le : Meeting → Meeting → Bool) (a : Meeting) :
    List Meeting → List Meeting
  | [] => [a]
  | b :: l => if le a b then a :: b :: l else b :: orderedInsert le a l

/-- See `orderedInsert`: the stable sort modelling `day.sort(key=...)`. -/
def stableSortBy (le : Meeting → Meeting → Bool) :
    List Meeting → List Meeting
  | [] => []
  | x :: xs => orderedInsert le x (stableSortBy le xs)

/-- The sort key `(mt.get_actual_date_start(), mt.time_start, mt.time_end)`
compared lexicographically (Python tuple comparison). -/
def sortKeyLe (a b : Meeting) : Bool :=
  decide (a.actualDateStartD < b.actualDateStartD ∨
    (a.actualDateStartD = b.actualDateStartD ∧
      (a.time_start < b.time_start ∨
        (a.time_start = b.time_start ∧ a.time_end ≤ b.time_end))))

/-- Walk adjacent pairs `(day[i-1], day[i])`, returning the details of the
first conflicting pair (`some` of its datetime field), `none` when no
adjacent pair conflicts; errors from `meeting_conflict` propagate. -/
def scanAdjacent : List Meeting → Except PyErr (Option (Option ℚ))
  | a :: b :: rest => do
    let conflict_detailed ← meeting_conflict a b
    if conflict_detailed.1 then pure (some conflict_detailed.2)
    else scanAdjacent (b :: rest)
  | _ => pure none

/-- Process one weekday bucket: sort only when it has ≥ 3 members, compare the
pair directly when it has exactly 2, do nothing otherwise. -/
def processDay (day : List Meeting) : Except PyErr (Option (Option ℚ)) :=
  if 3 ≤ day.length then scanAdjacent (stableSortBy sortKeyLe day)
  else
    match day with
    | [a, b] => do
      let conflict_detailed ← meeting_conflict a b
      if conflict_detailed.1 then pure (some conflict_detailed.2) else pure none
    | _ => pure none

/-- Process the seven buckets in weekday order; the first bucket reporting a
conflict determines the result. -/
def processWeek : List (List Meeting) → Except PyErr (Bool × Option ℚ)
  | [] => pure (true, none)
  | day :: rest => do
    match ← processDay day with
    | some dt => pure (false, dt)
    | none => processWeek rest

/-- `meeting_class.meetings_are_time_valid(mt_list, detailed=True)`. -/
def meetings_are_time_valid (mt_list : List Meeting) :
    Except PyErr (Bool × Option ℚ) :=
  if mt_list.length ≤ 1 then pure (true, none)
  else
    processWeek ((List.range 7).map (fun i =>
      mt_list.filter (fun m => m.decodeDaysOfWeek.valuesList.getD i false)))

/-- `meetings_are_time_valid(mt_list)` with `detailed=False`. -/
def meetingsAreTimeValidB (mt_list : List Meeting) : Except PyErr Bool :=
  (meetings_are_time_valid mt_list).map (fun r => r.1)

/-! ### `Course` (`classes/course_class.py`) and the preference scorer
(`classes/optimizer_criteria_class.py`)

`Course` carries the fields of the pydantic model in `classes/course_class.py`.
`CourseOptimizerCriteria.course_eval` additionally reads `course.instructors`,
`course.maximum_enrollment` and `course.current_enrollment` — attributes that
do not exist on this `Course` model; those accesses are modelled as
`AttributeError`. -/

/-- The `Course` pydantic model of `classes/course_class.py` (the `section`
field is named `courseSection` because `section` is reserved in Lean). -/
structure Course where
  fac : String
  uid : String
  crn : ℤ
  class_type : String
  title : String
  courseSection : Option String
  class_time : List Meeting := []
  is_linked : Bool
  link_tag : Option String
  seats_filled : ℤ
  max_capacity : ℤ
  instructor : Option String
  instructor_email : Option String
  instructor_rating : Option ℚ
  is_virtual : Bool
  restrictions : Option (List (String × List String))
  deriving DecidableEq, Repr

/-- `Course.num_actual_meetings`: sum of each meeting's occurrence count. -/
def Course.numActualMeetings (c : Course) : Except PyErr ℤ :=
  c.class_time.foldlM (fun count meeting => do
    pure (count + (← meeting.numActualMeetings))) 0

/-- `CourseOptimizerCriteria` (`classes/optimizer_criteria_class.py`):
each `available_times` entry is `(weekday_int, time_start, time_end)`. -/
structure CourseOptimizerCriteria where
  available_times : List (ℕ × ℕ × ℕ) := []
  available_times_weight : ℚ := 0
  is_virtual : Option Bool := none
  is_virtual_weight : ℚ := 0
  high_prof_rating : Option Bool := none
  high_prof_rating_weight : ℚ := 0
  min_seats_open : Option ℤ := none
  min_seats_open_weight : ℚ := 0
  max_capacity : Option ℤ := none
  max_capacity_weight : ℚ := 0
  deriving DecidableEq, Repr

/-- The per-pair condition of the `available_times` loop:
`sub[0] in mt.decode_days_of_week().values()` compares the int `sub[0]` with
the seven booleans (`x == True` iff `x == 1`, `x == False` iff `x == 0`, so
the booleans act as the set `{0, 1}` filtered by presence), and the time
check is the two chained inclusive comparisons of the source. -/
def availTimesMatch (sub : ℕ × ℕ × ℕ) (mt : Meeting) : Bool :=
  ((mt.decodeDaysOfWeek.valuesList.map (fun b => if b then (1 : ℕ) else 0)).contains
      sub.1)
    && (decide (sub.2.1 ≤ mt.time_start ∧ mt.time_start ≤ sub.2.2)
        || decide (sub.2.1 ≤ mt.time_end ∧ mt.time_end ≤ sub.2.2))

/-- The rating accumulated by the `available_times` double loop:
`mt.num_actual_meetings() * self.available_times_weight` per matching pair. -/
def availTimesRating (subs : List (ℕ × ℕ × ℕ)) (mts : List Meeting) (w : ℚ) :
    Except PyErr ℚ :=
  subs.foldlM (fun acc sub =>
    mts.foldlM (fun acc2 mt =>
      if availTimesMatch sub mt then do
        let n ← mt.numActualMeetings
        pure (acc2 + (n : ℚ) * w)
      else pure acc2) acc) 0

/-- `CourseOptimizerCriteria.course_eval(course)`.  `rating` starts at `0.0`
and `general_multiplier` at `1`; the final result is
`rating * general_multiplier`.  The `high_prof_rating`, `min_seats_open` and
`max_capacity` branches read `course.instructors`,
`course.maximum_enrollment - course.current_enrollment` and
`course.maximum_enrollment` respectively — none of which exist on the
`Course` model — so reaching any of them raises `AttributeError`.  The
`max_capacity` branch is guarded by `self.max_capacity > 0`, not by its
weight. -/
def course_eval (self : CourseOptimizerCriteria) (course : Course) :
    Except PyErr ℚ := do
  let rating : ℚ := 0
  let general_multiplier : ℚ := 1
  -- if self.available_times and self.available_times_weight > 0
  let (rating, general_multiplier) ←
    if self.available_times ≠ [] ∧ 0 < self.available_times_weight then do
      let r ← availTimesRating self.available_times course.class_time
        self.available_times_weight
      pure (rating + r, general_multiplier + 1/4)
    else pure (rating, general_multiplier)
  -- if self.is_virtual is not None and self.is_virtual_weight > 0
  let (rating, general_multiplier) ←
    if self.is_virtual.isSome ∧ 0 < self.is_virtual_weight then
      if self.is_virtual = some course.is_virtual then do
        let n ← course.numActualMeetings
        pure (rating + 10 * (n : ℚ) * self.is_virtual_weight,
          general_multiplier + 1/4)
      else pure (rating, general_multiplier)
    else pure (rating, general_multiplier)
  -- if self.high_prof_rating is not None and self.high_prof_rating_weight > 0
  if self.high_prof_rating.isSome ∧ 0 < self.high_prof_rating_weight
      ∧ self.high_prof_rating = some true then
    -- sum([f.rating for f in course.instructors]): no `instructors` field.
    throw PyErr.attributeError
  -- if self.min_seats_open is not None and self.min_seats_open_weight > 0
  if self.min_seats_open.isSome ∧ 0 < self.min_seats_open_weight then
    -- course.maximum_enrollment - course.current_enrollment: no such fields.
    throw PyErr.attributeError
  -- if self.max_capacity is not None and self.max_capacity > 0
  if (self.max_capacity.map (fun c => decide (0 < c))).getD false then
    -- self.max_capacity >= course.maximum_enrollment: no such field.
    throw PyErr.attributeError
  pure (rating * general_multiplier)

/-! ### Spec-side definitions

The definitions in this section follow the words of the specification (and of
the claims derived from it), not the source; they exist to be compared with
the source-derived definitions above. -/

/-- Modelled from the spec (§4.3): the time-of-day intervals
`[time_start, time_end)` overlap as half-open intervals, via the four
boundary comparisons. -/
def specTimeOverlap (a b : Meeting) : Bool :=
  decide ((a.time_start ≤ b.time_start ∧ b.time_start < a.time_end) ∨
    (a.time_start < b.time_end ∧ b.time_end ≤ a.time_end) ∨
    (b.time_start ≤ a.time_start ∧ a.time_start < b.time_end) ∨
    (b.time_start < a.time_end ∧ a.time_end ≤ b.time_end))

/-- Modelled from the spec (§4.3): the date windows `[date_start, date_end)`
overlap "with the same half-open structure" as the time intervals. -/
def specDateOverlap (a b : Meeting) : Bool :=
  decide ((a.date_start ≤ b.date_start ∧ b.date_start < a.date_end) ∨
    (a.date_start < b.date_end ∧ b.date_end ≤ a.date_end) ∨
    (b.date_start ≤ a.date_start ∧ a.date_start < b.date_end) ∨
    (b.date_start < a.date_end ∧ a.date_end ≤ b.date_end))

/-- Modelled from the spec (§4.3): for two non-repeating meetings, conflict
iff both the time axis and the date axis overlap. -/
def specPairwiseConflict (a b : Meeting) : Bool :=
  specTimeOverlap a b && specDateOverlap a b

/-- Modelled from the spec (§4.2, adapted to the timedelta repeat model of
the source): expansion of a repeating meeting into its single one-day
occurrences, one per `repeat_timedelta_days` step from the first to the last
actual occurrence date; a non-repeating meeting expands to itself. -/
def specToSingleOccurrences (m : Meeting) : List Meeting :=
  if m.repeat_timedelta_days = 0 then [m]
  else
    match m.getActualDateStart?, m.getActualDateEnd? with
    | some s, some e =>
      (List.range (((e - s).fdiv m.repeat_timedelta_days + 1).toNat)).map
        (fun k =>
          { m with
            date_start := s + k * m.repeat_timedelta_days,
            date_end := s + k * m.repeat_timedelta_days,
            repeat_timedelta_days := 0 })
    | _, _ => [m]

/-- The sort key of spec §4.3 step 3: `(date_start, time_start, time_end)`
lexicographically. -/
def specSortKeyLe (a b : Meeting) : Bool :=
  decide (a.date_start < b.date_start ∨
    (a.date_start = b.date_start ∧
      (a.time_start < b.time_start ∨
        (a.time_start = b.time_start ∧ a.time_end ≤ b.time_end))))

/-- Modelled from the spec (§4.3, `meetings_conflict`, the algorithm the
claim describes): expand every repeating meeting to single occurrences, stop
if at most one meeting remains, sort the flattened list by
`(date_start, time_start, time_end)`, and compare only adjacent pairs, the
first conflicting adjacent pair determining the result. -/
def specMeetingsAreTimeValid (mt_list : List Meeting) :
    Except PyErr (Bool × Option ℚ) :=
  let expanded := mt_list.flatMap specToSingleOccurrences
  if expanded.length ≤ 1 then pure (true, none)
  else do
    match ← scanAdjacent (stableSortBy specSortKeyLe expanded) with
    | some dt => pure (false, dt)
    | none => pure (true, none)

/-! Spec-side scoring (§4.5 / claim C8): a criterion contributes exactly when
it is *satisfied* (value set, weight positive, and the course meets it); each
satisfied criterion adds `weight × contribution` to the running total and
adds `0.25` to the multiplier; final score is `total × multiplier`. -/

/-- Modelled from the spec: the time-window criterion is satisfied when some
configured window matches some meeting, with a positive weight. -/
def specAvailSatisfied (self : CourseOptimizerCriteria) (course : Course) :
    Bool :=
  (self.available_times.any (fun sub =>
      course.class_time.any (fun mt => availTimesMatch sub mt)))
    && decide (0 < self.available_times_weight)

/-- Modelled from the spec: the virtual-preference criterion is satisfied
when the set preference equals the course's virtual flag, with a positive
weight. -/
def specVirtualSatisfied (self : CourseOptimizerCriteria) (course : Course) :
    Bool :=
  self.is_virtual.isSome && decide (0 < self.is_virtual_weight)
    && (self.is_virtual == some course.is_virtual)

/-- Modelled from the spec: the instructor-rating criterion is satisfied when
requested with a positive weight (the course's own `instructor_rating` field
standing in for the instructor data the code fails to reach). -/
def specProfSatisfied (self : CourseOptimizerCriteria) : Bool :=
  (self.high_prof_rating == some true)
    && decide (0 < self.high_prof_rating_weight)

/-- Modelled from the spec: minimum-open-seats criterion, against
`max_capacity - seats_filled`. -/
def specSeatsSatisfied (self : CourseOptimizerCriteria) (course : Course) :
    Bool :=
  ((self.min_seats_open.map (fun n =>
      decide (n ≤ course.max_capacity - course.seats_filled))).getD false)
    && decide (0 < self.min_seats_open_weight)

/-- Modelled from the spec: maximum-class-size criterion, against
`max_capacity`. -/
def specCapacitySatisfied (self : CourseOptimizerCriteria) (course : Course) :
    Bool :=
  ((self.max_capacity.map (fun c =>
      decide (course.max_capacity ≤ c))).getD false)
    && decide (0 < self.max_capacity_weight)

/-- Modelled from the spec (§4.5 / claim C8): final score =
`running_total × multiplier`, the multiplier starting at `1.0` and gaining
`+0.25` per *satisfied* criterion, the time-window and virtual contributions
scaling with occurrence counts. -/
def spec_score (self : CourseOptimizerCriteria) (course : Course) :
    Except PyErr ℚ := do
  let availContrib ←
    if specAvailSatisfied self course then
      availTimesRating self.available_times course.class_time
        self.available_times_weight
    else pure 0
  let virtContrib ←
    if specVirtualSatisfied self course then do
      let n ← course.numActualMeetings
      pure (10 * (n : ℚ) * self.is_virtual_weight)
    else pure 0
  let profContrib : ℚ :=
    if specProfSatisfied self then
      (course.instructor_rating.getD 0) * 100 * self.high_prof_rating_weight
    else 0
  let seatsContrib : ℚ :=
    if specSeatsSatisfied self course then 100 * self.min_seats_open_weight
    else 0
  let capContrib : ℚ :=
    if specCapacitySatisfied self course then 100 * self.max_capacity_weight
    else 0
  let total := availContrib + virtContrib + profContrib + seatsContrib
    + capContrib
  let satisfiedCount : ℚ :=
    (if specAvailSatisfied self course then 1 else 0)
      + (if specVirtualSatisfied self course then 1 else 0)
      + (if specProfSatisfied self then 1 else 0)
      + (if specSeatsSatisfied self course then 1 else 0)
      + (if specCapacitySatisfied self course then 1 else 0)
  pure (total * (1 + satisfiedCount / 4))

/-! ## Theorems -/

/-! ### Claim C1 / C7: the `Meeting` constructor -/

/-- Microsecond values for the times of day used in concrete instances. -/
def t8h : ℕ := 28800000000
def t830h : ℕ := 30600000000
def t9h : ℕ := 32400000000
def t10h : ℕ := 36000000000
def t1030h : ℕ := 37800000000
def t11h : ℕ := 39600000000
def t12h : ℕ := 43200000000

/-- C1: a field assignment that satisfies every data-model invariant of the
spec: `08:00 < 10:00`, `date_start = date_end` (ordinal 1, a Monday),
weekday set `{Monday}` matching the window, no repetition.  The claim says
construction succeeds and returns a `Meeting` holding these values; instead
`verify_valid_weekday_int` reads the nonexistent `weekday_int` field
(`values.get` yields `None`, unequal to `date_start.weekday()`), so
construction fails with a `ValueError`-backed `ValidationError`. -/
theorem mkMeeting_valid_input_fails :
    mkMeeting t8h t10h 1 1 1 0 none = .error .valueError := rfl

/-- C7: no `Meeting` is ever produced by construction at all: for every field
assignment whatsoever the constructor fails (the stale `weekday_int` lookup
raises `ValueError` when `repeat_timedelta_days == 0` and `TypeError` — from
`None - int` inside `forward_weekday_target` — otherwise).  The claimed
orderings of successfully constructed `Meeting`s are therefore vacuous: the
set of constructible `Meeting`s is empty. -/
theorem mkMeeting_never_succeeds (time_start time_end days_of_week : ℕ)
    (date_start date_end : ℤ) (repeat_timedelta_days : ℕ)
    (location : Option String) :
    ∃ e, mkMeeting time_start time_end days_of_week date_start date_end
      repeat_timedelta_days location = .error e := by
  unfold mkMeeting
  split
  · exact ⟨_, rfl⟩
  split
  · exact ⟨_, rfl⟩
  split
  · exact ⟨_, rfl⟩
  split
  · exact ⟨_, rfl⟩
  · exact ⟨_, rfl⟩

/-! ### Claim C10: the weekday-set codecs round-trip -/

theorem decode_encode_days (a b c d e f g : Bool) :
    decode_days_of_week
      (encode_days_of_week ⟨a, b, c, d, e, f, g⟩) = ⟨a, b, c, d, e, f, g⟩ := by
  cases a <;> cases b <;> cases c <;> cases d <;> cases e <;> cases f
    <;> cases g <;> rfl

theorem encode_decode_days : ∀ v : ℕ, v < 128 →
    encode_days_of_week (decode_days_of_week v) = v := by decide

theorem encode_decode_ints : ∀ v : ℕ, v < 128 →
    encode_weekday_ints (decode_weekday_ints v) = v := by decide

theorem decode_ints_sorted : ∀ v : ℕ, v < 128 →
    List.Sorted (· < ·) (decode_weekday_ints v) := by decide

theorem decode_ints_mem : ∀ v : ℕ, v < 128 → ∀ i : ℕ, i < 7 →
    (i ∈ decode_weekday_ints v ↔ v.testBit i = true) := by decide

theorem decode_ints_le6 : ∀ v : ℕ, v < 128 →
    ∀ x ∈ decode_weekday_ints v, x ≤ 6 := by decide

theorem encode_ints_lt_128 (l : List ℕ) : encode_weekday_ints l < 128 := by
  unfold encode_weekday_ints
  generalize l.contains 0 = c0
  generalize l.contains 1 = c1
  generalize l.contains 2 = c2
  generalize l.contains 3 = c3
  generalize l.contains 4 = c4
  generalize l.contains 5 = c5
  generalize l.contains 6 = c6
  cases c0 <;> cases c1 <;> cases c2 <;> cases c3 <;> cases c4 <;> cases c5
    <;> cases c6 <;> decide

theorem contains_iff_mem (l : List ℕ) (i : ℕ) :
    (l.contains i = true) ↔ i ∈ l := by
  simp [List.contains]

theorem encode_ints_testBit (l : List ℕ) (i : ℕ) (hi : i < 7) :
    ((encode_weekday_ints l).testBit i = true ↔ i ∈ l) := by
  rcases (by omega : i = 0 ∨ i = 1 ∨ i = 2 ∨ i = 3 ∨ i = 4 ∨ i = 5 ∨ i = 6)
    with rfl | rfl | rfl | rfl | rfl | rfl | rfl <;>
  · rw [← contains_iff_mem l]
    unfold encode_weekday_ints
    generalize l.contains 0 = c0
    generalize l.contains 1 = c1
    generalize l.contains 2 = c2
    generalize l.contains 3 = c3
    generalize l.contains 4 = c4
    generalize l.contains 5 = c5
    generalize l.contains 6 = c6
    cases c0 <;> cases c1 <;> cases c2 <;> cases c3 <;> cases c4 <;> cases c5
      <;> cases c6 <;> decide

theorem decode_encode_ints (l : List ℕ) (hs : List.Sorted (· < ·) l)
    (hb : ∀ x ∈ l, x ≤ 6) :
    decode_weekday_ints (encode_weekday_ints l) = l := by
  have hv : encode_weekday_ints l < 128 := encode_ints_lt_128 l
  have hsd : List.Sorted (· < ·) (decode_weekday_ints (encode_weekday_ints l)) :=
    decode_ints_sorted _ hv
  have hmem : ∀ x : ℕ,
      x ∈ decode_weekday_ints (encode_weekday_ints l) ↔ x ∈ l := by
    intro x
    constructor
    · intro hx
      have hx6 : x ≤ 6 := decode_ints_le6 _ hv x hx
      have := (decode_ints_mem _ hv x (by omega)).mp hx
      exact (encode_ints_testBit l x (by omega)).mp this
    · intro hx
      have hx6 : x ≤ 6 := hb x hx
      have := (encode_ints_testBit l x (by omega)).mpr hx
      exact (decode_ints_mem _ hv x (by omega)).mpr this
  exact List.eq_of_perm_of_sorted
    ((List.perm_ext_iff_of_nodup hsd.nodup hs.nodup).mpr hmem) hsd hs

/-- C10: the weekday-set encodings round-trip.
`decode_days_of_week ∘ encode_days_of_week` is the identity on dicts
assigning a boolean to each of the seven weekday names;
`encode_days_of_week ∘ decode_days_of_week` is the identity on `0 ≤ v ≤ 127`;
and the same two identities hold between `encode_weekday_ints` and
`decode_weekday_ints` over duplicate-free ascending lists of weekday indices
in `[0, 6]`. -/
theorem weekday_codecs_roundtrip :
    (∀ d : DaysOfWeekDict,
        decode_days_of_week (encode_days_of_week d) = d) ∧
    (∀ v : ℕ, v ≤ 127 →
        encode_days_of_week (decode_days_of_week v) = v) ∧
    (∀ l : List ℕ, List.Sorted (· < ·) l → (∀ x ∈ l, x ≤ 6) →
        decode_weekday_ints (encode_weekday_ints l) = l) ∧
    (∀ v : ℕ, v ≤ 127 →
        encode_weekday_ints (decode_weekday_ints v) = v) := by
  refine ⟨?_, ?_, ?_, ?_⟩
  · rintro ⟨a, b, c, d, e, f, g⟩
    exact decode_encode_days a b c d e f g
  · intro v hv
    exact encode_decode_days v (by omega)
  · exact decode_encode_ints
  · intro v hv
    exact encode_decode_ints v (by omega)

/-- C10 witness: the round-trips evaluated at `v = 37` (`{Monday, Wednesday,
Saturday}`), at the corresponding dict, and at the ascending list
`[0, 2, 5]`. -/
theorem weekday_codecs_roundtrip_witness :
    decode_days_of_week
        (encode_days_of_week ⟨true, false, true, false, false, true, false⟩)
      = ⟨true, false, true, false, false, true, false⟩ ∧
    encode_days_of_week (decode_days_of_week 37) = 37 ∧
    decode_weekday_ints (encode_weekday_ints [0, 2, 5]) = [0, 2, 5] ∧
    encode_weekday_ints (decode_weekday_ints 37) = 37 := by
  refine ⟨weekday_codecs_roundtrip.1 _, weekday_codecs_roundtrip.2.1 37 (by decide),
    weekday_codecs_roundtrip.2.2.1 [0, 2, 5] ?_ ?_,
    weekday_codecs_roundtrip.2.2.2 37 (by decide)⟩
  · decide
  · decide

/-! ### Claim C2: pairwise conflict for non-repeating meetings -/

/-- `get_actual_date_end` with the (unreachable on valid data) default `0`. -/
def Meeting.actualDateEndD (m : Meeting) : ℤ :=
  m.getActualDateEnd?.getD 0

/-- A non-repeating meeting on which `meeting_conflict` is well defined:
ordered times and a nonempty decoded weekday set. -/
def Meeting.ValidNonRepeating (m : Meeting) : Prop :=
  m.repeat_timedelta_days = 0 ∧ m.time_start < m.time_end ∧ m.weekdayIdxs ≠ []

theorem getActualDateStart_of_ne_nil (m : Meeting) (h : m.weekdayIdxs ≠ []) :
    ∃ s, m.getActualDateStart? = some s := by
  rcases he : m.getActualDateStart? with _ | s
  · exact absurd (List.eq_nil_iff_forall_not_mem.mpr (by
      simpa using List.min?_eq_none_iff.mp he)) h
  · exact ⟨s, rfl⟩

theorem getActualDateEnd_of_ne_nil (m : Meeting) (h : m.weekdayIdxs ≠ []) :
    ∃ e, m.getActualDateEnd? = some e := by
  rcases he : m.getActualDateEnd? with _ | e
  · exact absurd (List.eq_nil_iff_forall_not_mem.mpr (by
      simpa using List.max?_eq_none_iff.mp he)) h
  · exact ⟨e, rfl⟩

theorem timeConflictCond_iff_strict (a b : Meeting)
    (ha : a.time_start < a.time_end) (hb : b.time_start < b.time_end) :
    timeConflictCond a b ↔
      (a.time_start < b.time_end ∧ b.time_start < a.time_end) := by
  unfold timeConflictCond
  omega

theorem dateTs_inj (x y : ℤ) : dateTs x = dateTs y ↔ x = y := by
  unfold dateTs
  omega

/-- Two non-repeating meetings used for C2/C4: `08:00–10:00` and
`08:30–09:00`, both on the single Monday of ordinal 1, weekday set
`{Monday}`.  They conflict (same day, nested times) and match the spec's
worked scenario. -/
def mondayLong : Meeting :=
  { time_start := t8h, time_end := t10h, days_of_week := 1,
    date_start := 1, date_end := 1 }

def mondayShort : Meeting :=
  { time_start := t830h, time_end := t9h, days_of_week := 1,
    date_start := 1, date_end := 1 }

/-- C2 counterexample: the claim states that `meeting_conflict` reports a
conflict exactly when the half-open time intervals overlap *and* the
half-open date windows `[date_start, date_end)` overlap.  For the two valid
non-repeating single-day meetings above (each with
`date_start = date_end`), the half-open date windows are empty, so the
claimed criterion yields no conflict — but the code reports a conflict (as
its own doctest documents). -/
theorem meeting_conflict_halfopen_date_counterexample :
    meetingConflictB mondayLong mondayShort = .ok true ∧
    specPairwiseConflict mondayLong mondayShort = false ∧
    specTimeOverlap mondayLong mondayShort = true := by
  exact ⟨rfl, rfl, rfl⟩

/-- C2 (amended): for valid non-repeating meetings `a`, `b`,
`meeting_conflict` reports a conflict exactly when the time-of-day intervals
overlap half-openly (`time_start < other.time_end` on both sides; a shared
endpoint does not conflict) **and** the two meetings' actual occurrence
ranges all collapse to one common day
(`actual_date_start = actual_date_end` for both, all four equal) — not when
the raw half-open date windows merely overlap. -/
theorem meeting_conflict_nonrepeating_characterization (a b : Meeting)
    (ha : a.ValidNonRepeating) (hb : b.ValidNonRepeating) :
    meetingConflictB a b =
      .ok (decide
        ((a.time_start < b.time_end ∧ b.time_start < a.time_end) ∧
          (a.actualDateStartD = a.actualDateEndD ∧
            a.actualDateEndD = b.actualDateStartD ∧
            b.actualDateStartD = b.actualDateEndD))) := by
  obtain ⟨har, hat, hal⟩ := ha
  obtain ⟨hbr, hbt, hbl⟩ := hb
  obtain ⟨s1, hs1⟩ := getActualDateStart_of_ne_nil a hal
  obtain ⟨e1, he1⟩ := getActualDateEnd_of_ne_nil a hal
  obtain ⟨s2, hs2⟩ := getActualDateStart_of_ne_nil b hbl
  obtain ⟨e2, he2⟩ := getActualDateEnd_of_ne_nil b hbl
  have hds1 : a.actualDateStartD = s1 := by
    simp [Meeting.actualDateStartD, hs1]
  have hde1 : a.actualDateEndD = e1 := by
    simp [Meeting.actualDateEndD, he1]
  have hds2 : b.actualDateStartD = s2 := by
    simp [Meeting.actualDateStartD, hs2]
  have hde2 : b.actualDateEndD = e2 := by
    simp [Meeting.actualDateEndD, he2]
  unfold meetingConflictB meeting_conflict
  by_cases ht : timeConflictCond a b
  · rw [if_neg (by simpa using ht), hs1, he1, hs2, he2]
    dsimp only
    unfold conflictCore
    dsimp only
    rw [if_pos ⟨har, hbr⟩]
    by_cases hd : dateTs s1 = dateTs e1 ∧ dateTs e1 = dateTs s2 ∧
        dateTs s2 = dateTs e2
    · rw [if_pos hd]
      have hdec : ((a.time_start < b.time_end ∧ b.time_start < a.time_end) ∧
          (a.actualDateStartD = a.actualDateEndD ∧
            a.actualDateEndD = b.actualDateStartD ∧
            b.actualDateStartD = b.actualDateEndD)) := by
        refine ⟨(timeConflictCond_iff_strict a b hat hbt).mp ht, ?_, ?_, ?_⟩
        · rw [hds1, hde1]; exact (dateTs_inj _ _).mp hd.1
        · rw [hde1, hds2]; exact (dateTs_inj _ _).mp hd.2.1
        · rw [hds2, hde2]; exact (dateTs_inj _ _).mp hd.2.2
      rw [decide_eq_true hdec]
      rfl
    · rw [if_neg hd]
      have hdec : ¬ ((a.time_start < b.time_end ∧ b.time_start < a.time_end) ∧
          (a.actualDateStartD = a.actualDateEndD ∧
            a.actualDateEndD = b.actualDateStartD ∧
            b.actualDateStartD = b.actualDateEndD)) := by
        rintro ⟨-, h1, h2, h3⟩
        exact hd ⟨(dateTs_inj _ _).mpr (hds1 ▸ hde1 ▸ h1),
          (dateTs_inj _ _).mpr (hde1 ▸ hds2 ▸ h2),
          (dateTs_inj _ _).mpr (hds2 ▸ hde2 ▸ h3)⟩
      rw [decide_eq_false hdec]
      rfl
  · rw [if_pos (by simpa using ht)]
    have hdec : ¬ ((a.time_start < b.time_end ∧ b.time_start < a.time_end) ∧
        (a.actualDateStartD = a.actualDateEndD ∧
          a.actualDateEndD = b.actualDateStartD ∧
          b.actualDateStartD = b.actualDateEndD)) := by
      rintro ⟨h1, -⟩
      exact ht ((timeConflictCond_iff_strict a b hat hbt).mpr h1)
    rw [decide_eq_false hdec]
    rfl

/-- C2 witness: the amended characterization applied to the two concrete
meetings above; both sides evaluate to a conflict. -/
theorem meeting_conflict_nonrepeating_characterization_witness :
    meetingConflictB mondayLong mondayShort =
      .ok (decide
        ((mondayLong.time_start < mondayShort.time_end ∧
            mondayShort.time_start < mondayLong.time_end) ∧
          (mondayLong.actualDateStartD = mondayLong.actualDateEndD ∧
            mondayLong.actualDateEndD = mondayShort.actualDateStartD ∧
            mondayShort.actualDateStartD = mondayShort.actualDateEndD))) :=
  meeting_conflict_nonrepeating_characterization mondayLong mondayShort
    ⟨rfl, by decide, by decide⟩ ⟨rfl, by decide, by decide⟩

/-! ### Claim C4: the detailed conflict datetime -/

/-- Two weekly repeating meetings on the same Mondays (ordinals 1–15),
`08:00–10:00` and `08:30–09:00`: a genuine recurring conflict whose date
lines coincide. -/
def weeklyLong : Meeting :=
  { time_start := t8h, time_end := t10h, days_of_week := 1,
    date_start := 1, date_end := 15, repeat_timedelta_days := 7 }

def weeklyShort : Meeting :=
  { time_start := t830h, time_end := t9h, days_of_week := 1,
    date_start := 1, date_end := 15, repeat_timedelta_days := 7 }

/-- C4 counterexample: the claim says a reported conflict in detailed mode
always carries the earliest combined conflict datetime.  These two weekly
meetings conflict every Monday, yet the detailed result is `(True, None)`:
the overlapping-parallel-lines branch reports the conflict with no datetime
at all. -/
theorem meeting_conflict_detail_none_counterexample :
    meeting_conflict weeklyLong weeklyShort = .ok (true, none) := by
  unfold meeting_conflict
  rw [if_neg (by decide)]
  have h1 : weeklyLong.getActualDateStart? = some 1 := by decide
  have h2 : weeklyLong.getActualDateEnd? = some 15 := by decide
  have h3 : weeklyShort.getActualDateStart? = some 1 := by decide
  have h4 : weeklyShort.getActualDateEnd? = some 15 := by decide
  rw [h1, h2, h3, h4]
  dsimp only
  unfold conflictCore
  dsimp only
  rw [if_neg (by decide), if_neg (by decide), if_neg (by decide)]
  unfold lineTest
  rw [if_neg (by decide)]
  dsimp only
  rw [if_pos rfl, if_pos rfl]

/-- C4 (amended): only for two *non-repeating* valid meetings does a detailed
conflict always carry the claimed datetime — the common single occurrence day
combined with the later `time_start`.  (For conflicts involving repeating
meetings the code may return no datetime at all, or the intersection date at
midnight rather than at the later `time_start`.) -/
theorem meeting_conflict_detail_nonrepeating (a b : Meeting)
    (ha : a.ValidNonRepeating) (hb : b.ValidNonRepeating) (d : Option ℚ)
    (h : meeting_conflict a b = .ok (true, d)) :
    d = some (combineTs a.actualDateStartD (max a.time_start b.time_start)) := by
  obtain ⟨har, hat, hal⟩ := ha
  obtain ⟨hbr, hbt, hbl⟩ := hb
  obtain ⟨s1, hs1⟩ := getActualDateStart_of_ne_nil a hal
  obtain ⟨e1, he1⟩ := getActualDateEnd_of_ne_nil a hal
  obtain ⟨s2, hs2⟩ := getActualDateStart_of_ne_nil b hbl
  obtain ⟨e2, he2⟩ := getActualDateEnd_of_ne_nil b hbl
  have hds1 : a.actualDateStartD = s1 := by
    simp [Meeting.actualDateStartD, hs1]
  unfold meeting_conflict at h
  by_cases ht : timeConflictCond a b
  · rw [if_neg (by simpa using ht), hs1, he1, hs2, he2] at h
    dsimp only at h
    unfold conflictCore at h
    dsimp only at h
    rw [if_pos ⟨har, hbr⟩] at h
    by_cases hd : dateTs s1 = dateTs e1 ∧ dateTs e1 = dateTs s2 ∧
        dateTs s2 = dateTs e2
    · rw [if_pos hd] at h
      rw [hds1]
      injection h with h'
      exact (Prod.mk.injEq _ _ _ _).mp h' |>.2.symm
    · rw [if_neg hd] at h
      injection h with h'
      exact absurd ((Prod.mk.injEq _ _ _ _).mp h').1 (by simp)
  · rw [if_pos (by simpa using ht)] at h
    injection h with h'
    exact absurd ((Prod.mk.injEq _ _ _ _).mp h').1 (by simp)

/-- C4 witness: for the spec's worked scenario (`08:00–10:00` vs
`08:30–09:00`, same single Monday) the detailed conflict datetime is `08:30`
on that day, as obtained both by evaluation and by the amended theorem. -/
theorem meeting_conflict_detail_nonrepeating_witness :
    some (combineTs 1 t830h) =
      some (combineTs mondayLong.actualDateStartD
        (max mondayLong.time_start mondayShort.time_start)) :=
  meeting_conflict_detail_nonrepeating mondayLong mondayShort
    ⟨rfl, by decide, by decide⟩ ⟨rfl, by decide, by decide⟩
    (some (combineTs 1 t830h)) rfl

/-! ### Claim C6: no precondition error for repeating meetings -/

/-- Evaluation helper: the successful intersection branch of `lineTest`,
with every intermediate quantity supplied as an explicit value. -/
theorem lineTest_intersect (mt_1 mt_2 : Meeting) (a1s a2s : ℤ)
    (x1 x2 x3 x4 y1 y2 y3 y4 : ℤ) (m1 m2 b1 b2 x y : ℚ)
    (hx2 : ¬ (x2 - x1 = 0 ∨ x4 - x3 = 0))
    (hm1 : ((y2 - y1 : ℤ) : ℚ) / ((x2 - x1 : ℤ) : ℚ) = m1)
    (hm2 : ((y4 - y3 : ℤ) : ℚ) / ((x4 - x3 : ℤ) : ℚ) = m2)
    (hb1 : (y1 : ℚ) - m1 * (x1 : ℚ) = b1)
    (hb2 : (y3 : ℚ) - m2 * (x3 : ℚ) = b2)
    (hne : ¬ m1 = m2)
    (hx : (b2 - b1) / (m1 - m2) = x)
    (hrange : ¬ (x < ((min x1 x2 : ℤ) : ℚ) ∨ x > ((max x1 x2 : ℤ) : ℚ) ∨
        x < ((min x3 x4 : ℤ) : ℚ) ∨ x > ((max x3 x4 : ℤ) : ℚ)))
    (hy : (y1 : ℚ) + m1 * (x - (x1 : ℚ)) = y)
    (hvalid : isValidDateIntersection mt_1 mt_2 a1s a2s x y = true) :
    lineTest mt_1 mt_2 a1s a2s x1 x2 x3 x4 y1 y2 y3 y4 = .ok (true, some y) := by
  unfold lineTest
  rw [if_neg hx2]
  dsimp only
  rw [hm1, hm2, hb1, hb2, if_neg hne, hx, if_pos hrange, hy, if_pos hvalid]

/-- A weekly all-day Monday meeting over ordinals 1–15 and a single
non-repeating meeting on its third Monday: the doctest pair of
`meeting_conflict`. -/
def weeklyAllDay : Meeting :=
  { days_of_week := 1, date_start := 1, date_end := 15,
    repeat_timedelta_days := 7 }

def mondayOf15 : Meeting :=
  { time_start := t8h, time_end := t10h, days_of_week := 1,
    date_start := 15, date_end := 15 }

/-- C6 counterexample: the claim says `meeting_conflict` raises a
`PreconditionError` whenever invoked with a still-repeating meeting.  It does
not: invoked with the repeating `weeklyAllDay` it *returns* a conflict result
(the documented doctest output, the third Monday at midnight). -/
theorem meeting_conflict_repeating_returns :
    meeting_conflict weeklyAllDay mondayOf15 =
      .ok (true, some ((dateTs 15 : ℤ) : ℚ)) := by
  unfold meeting_conflict
  rw [if_neg (by decide)]
  have h1 : weeklyAllDay.getActualDateStart? = some 1 := by decide
  have h2 : weeklyAllDay.getActualDateEnd? = some 15 := by decide
  have h3 : mondayOf15.getActualDateStart? = some 15 := by decide
  have h4 : mondayOf15.getActualDateEnd? = some 15 := by decide
  rw [h1, h2, h3, h4]
  dsimp only
  unfold conflictCore
  dsimp only
  rw [if_neg (by decide), if_neg (by decide), if_pos (by decide)]
  have hvalid : isValidDateIntersection weeklyAllDay mondayOf15 1 15
      14 ((dateTs 15 : ℤ) : ℚ) = true := by
    unfold isValidDateIntersection intersectionTs
    rw [if_neg (by decide), if_pos (by
      unfold floatModZero
      show ((14 : ℚ) / ((7 : ℕ) : ℚ)).den = 1
      rw [show (14 : ℚ) / ((7 : ℕ) : ℚ) = 2 by norm_num]
      rfl), if_pos (by decide)]
    refine decide_eq_true ?_
    constructor
    · norm_num [dateTs]
    · norm_num [dateTs]
  exact lineTest_intersect _ _ _ _ _ _ _ _ _ _ _ _ 86400 0
    ((86400 : ℚ) - 0) ((1296000 : ℚ) - 0) 14 ((dateTs 15 : ℤ) : ℚ)
    (by decide) (by norm_num [dateTs]) (by norm_num [dateTs])
    (by norm_num [dateTs]) (by norm_num [dateTs]) (by norm_num)
    (by norm_num) (by norm_num) (by norm_num [dateTs]) hvalid

/-- All non-error branches of `lineTest` return a result. -/
theorem lineTest_ok (mt_1 mt_2 : Meeting) (a1s a2s : ℤ)
    (x1 x2 x3 x4 y1 y2 y3 y4 : ℤ)
    (h : ¬ (x2 - x1 = 0 ∨ x4 - x3 = 0)) :
    ∃ r, lineTest mt_1 mt_2 a1s a2s x1 x2 x3 x4 y1 y2 y3 y4 = .ok r := by
  unfold lineTest
  rw [if_neg h]
  dsimp only
  split
  · split
    · exact ⟨_, rfl⟩
    · exact ⟨_, rfl⟩
  · split
    · split
      · exact ⟨_, rfl⟩
      · exact ⟨_, rfl⟩
    · exact ⟨_, rfl⟩

/-- A meeting `meeting_conflict` can process without an exception: a nonempty
decoded weekday set and, when repeating, an actual span of at least one day
(otherwise the slope computation divides by zero). -/
def Meeting.ConflictSafe (m : Meeting) : Prop :=
  m.weekdayIdxs ≠ [] ∧
  (m.repeat_timedelta_days ≠ 0 → ∀ s e, m.getActualDateStart? = some s →
    m.getActualDateEnd? = some e → s < e)

/-- C6 (amended): `meeting_conflict` is defined on still-repeating meetings:
for any two meetings with nonempty weekday sets whose repeating members span
more than one occurrence day, it returns a result — repeating meetings are
compared directly through the date-line intersection, and no precondition
error exists anywhere in the function. -/
theorem meeting_conflict_total (a b : Meeting)
    (hca : a.ConflictSafe) (hcb : b.ConflictSafe) :
    ∃ r, meeting_conflict a b = .ok r := by
  obtain ⟨hal, hsa⟩ := hca
  obtain ⟨hbl, hsb⟩ := hcb
  unfold meeting_conflict
  by_cases ht : timeConflictCond a b
  · rw [if_neg (by simpa using ht)]
    obtain ⟨s1, hs1⟩ := getActualDateStart_of_ne_nil a hal
    obtain ⟨e1, he1⟩ := getActualDateEnd_of_ne_nil a hal
    obtain ⟨s2, hs2⟩ := getActualDateStart_of_ne_nil b hbl
    obtain ⟨e2, he2⟩ := getActualDateEnd_of_ne_nil b hbl
    rw [hs1, he1, hs2, he2]
    dsimp only
    unfold conflictCore
    dsimp only
    by_cases h0 : a.repeat_timedelta_days = 0 ∧ b.repeat_timedelta_days = 0
    · rw [if_pos h0]
      split
      · exact ⟨_, rfl⟩
      · exact ⟨_, rfl⟩
    · rw [if_neg h0]
      by_cases g1 : a.repeat_timedelta_days = 0 ∧ dateTs s1 = dateTs e1
      · rw [if_pos g1]
        have hbr : b.repeat_timedelta_days ≠ 0 := fun hb0 => h0 ⟨g1.1, hb0⟩
        have hspan : s2 < e2 := hsb hbr s2 e2 hs2 he2
        refine lineTest_ok _ _ _ _ _ _ _ _ _ _ _ _ ?_
        rw [max_eq_right (by omega : (0 : ℤ) ≤ e2 - s2)]
        omega
      · rw [if_neg g1]
        by_cases g2 : b.repeat_timedelta_days = 0 ∧ dateTs s2 = dateTs e2
        · rw [if_pos g2]
          have har : a.repeat_timedelta_days ≠ 0 := fun ha0 => h0 ⟨ha0, g2.1⟩
          have hspan : s1 < e1 := hsa har s1 e1 hs1 he1
          refine lineTest_ok _ _ _ _ _ _ _ _ _ _ _ _ ?_
          rw [max_eq_right (by omega : (0 : ℤ) ≤ e1 - s1)]
          omega
        · rw [if_neg g2]
          refine lineTest_ok _ _ _ _ _ _ _ _ _ _ _ _ ?_
          have hd1 : e1 - s1 ≠ 0 := by
            rcases Nat.eq_zero_or_pos a.repeat_timedelta_days with ha0 | ha0
            · have : ¬ dateTs s1 = dateTs e1 := fun hy => g1 ⟨ha0, hy⟩
              unfold dateTs at this
              omega
            · have := hsa (by omega) s1 e1 hs1 he1
              omega
          have hd2 : e2 - s2 ≠ 0 := by
            rcases Nat.eq_zero_or_pos b.repeat_timedelta_days with hb0 | hb0
            · have : ¬ dateTs s2 = dateTs e2 := fun hy => g2 ⟨hb0, hy⟩
              unfold dateTs at this
              omega
            · have := hsb (by omega) s2 e2 hs2 he2
              omega
          omega
  · rw [if_pos (by simpa using ht)]
    exact ⟨_, rfl⟩

/-- C6 witness: the totality theorem applied to the repeating
`weeklyAllDay` against `mondayOf15`. -/
theorem meeting_conflict_total_witness :
    ∃ r, meeting_conflict weeklyAllDay mondayOf15 = .ok r := by
  refine meeting_conflict_total weeklyAllDay mondayOf15
    ⟨by decide, fun _ s e hs he => ?_⟩ ⟨by decide, fun h => absurd rfl h⟩
  have h1 := (show weeklyAllDay.getActualDateStart? = some 1 by decide).symm.trans hs
  have h2 := (show weeklyAllDay.getActualDateEnd? = some 15 by decide).symm.trans he
  injection h1 with h1
  injection h2 with h2
  omega

/-! ### Claim C3: the schedule-level algorithm -/

/-- Weekly Monday `08:00–10:00` over ordinals 1–15 (occurrences on days 1, 8
and 15). -/
def weeklyMorning : Meeting :=
  { time_start := t8h, time_end := t10h, days_of_week := 1,
    date_start := 1, date_end := 15, repeat_timedelta_days := 7 }

/-- Non-repeating Monday (day 1) `10:30–11:00`. -/
def mondayLate : Meeting :=
  { time_start := t1030h, time_end := t11h, days_of_week := 1,
    date_start := 1, date_end := 1 }

/-- Non-repeating Monday (day 15) `08:30–09:00`: conflicts with the third
occurrence of `weeklyMorning`. -/
def thirdMondayShort : Meeting :=
  { time_start := t830h, time_end := t9h, days_of_week := 1,
    date_start := 15, date_end := 15 }

/-- C3 counterexample: the claim describes `meetings_are_time_valid` as
"expand repeating meetings, sort the flattened list, compare adjacent pairs".
The code expands nothing: it buckets meetings per weekday and compares only
adjacent meetings of a bucket, passing repeating meetings to
`meeting_conflict` directly.  On this three-meeting schedule the two
algorithms disagree: the claimed algorithm finds the real conflict between
`weeklyMorning`'s third occurrence and `thirdMondayShort` (second conjunct),
the code reports the schedule conflict-free (first conjunct) even though the
pairwise conflict exists (third conjunct). -/
theorem meetings_are_time_valid_no_expansion_counterexample :
    meetings_are_time_valid [weeklyMorning, mondayLate, thirdMondayShort]
        = .ok (true, none) ∧
    specMeetingsAreTimeValid [weeklyMorning, mondayLate, thirdMondayShort]
        = .ok (false, some (combineTs 15 t830h)) ∧
    meeting_conflict weeklyMorning thirdMondayShort =
        .ok (true, some ((dateTs 15 : ℤ) : ℚ)) := by
  refine ⟨rfl, rfl, ?_⟩
  unfold meeting_conflict
  rw [if_neg (by decide)]
  have h1 : weeklyMorning.getActualDateStart? = some 1 := by decide
  have h2 : weeklyMorning.getActualDateEnd? = some 15 := by decide
  have h3 : thirdMondayShort.getActualDateStart? = some 15 := by decide
  have h4 : thirdMondayShort.getActualDateEnd? = some 15 := by decide
  rw [h1, h2, h3, h4]
  dsimp only
  unfold conflictCore
  dsimp only
  rw [if_neg (by decide), if_neg (by decide), if_pos (by decide)]
  have hvalid : isValidDateIntersection weeklyMorning thirdMondayShort 1 15
      14 ((dateTs 15 : ℤ) : ℚ) = true := by
    unfold isValidDateIntersection intersectionTs
    rw [if_neg (by decide), if_pos (by
      unfold floatModZero
      show ((14 : ℚ) / ((7 : ℕ) : ℚ)).den = 1
      rw [show (14 : ℚ) / ((7 : ℕ) : ℚ) = 2 by norm_num]
      rfl), if_pos (by decide)]
    refine decide_eq_true ?_
    constructor
    · norm_num [dateTs]
    · norm_num [dateTs]
  exact lineTest_intersect _ _ _ _ _ _ _ _ _ _ _ _ 86400 0
    ((86400 : ℚ) - 0) ((1296000 : ℚ) - 0) 14 ((dateTs 15 : ℤ) : ℚ)
    (by decide) (by norm_num [dateTs]) (by norm_num [dateTs])
    (by norm_num [dateTs]) (by norm_num [dateTs]) (by norm_num)
    (by norm_num) (by norm_num) (by norm_num [dateTs]) hvalid

theorem processDay_small (day : List Meeting) (h : day.length ≤ 1) :
    processDay day = pure none := by
  rcases day with _ | ⟨a, _ | ⟨b, rest⟩⟩
  · rfl
  · rfl
  · simp at h

/-- C3 (amended): the schedule check groups meetings by weekday and compares
only adjacent members (after a per-bucket sort when a bucket has at least
three members) within the same weekday bucket, with no expansion of
repeating meetings; in particular whenever every weekday bucket holds at
most one meeting the schedule is reported conflict-free, whatever the
meetings' repeat rules and dates. -/
theorem meetings_are_time_valid_singleton_buckets (mts : List Meeting)
    (h : ∀ i : ℕ, i < 7 →
      (mts.filter
        (fun m => m.decodeDaysOfWeek.valuesList.getD i false)).length ≤ 1) :
    meetings_are_time_valid mts = .ok (true, none) := by
  unfold meetings_are_time_valid
  split
  · rfl
  · have hgen : ∀ l : List ℕ, (∀ i ∈ l, i < 7) →
        processWeek (l.map (fun i => mts.filter
          (fun m => m.decodeDaysOfWeek.valuesList.getD i false)))
          = pure (true, none) := by
      intro l hl
      induction l with
      | nil => rfl
      | cons x xs ih =>
        have hx : processDay (mts.filter
            (fun m => m.decodeDaysOfWeek.valuesList.getD x false))
            = pure none :=
          processDay_small _ (h x (hl x (List.mem_cons_self x xs)))
        simp only [List.map_cons, processWeek, hx, pure_bind]
        exact ih (fun i hi => hl i (List.mem_cons_of_mem x hi))
    exact hgen (List.range 7) (by
      intro i hi
      simpa using hi)

/-- Non-repeating Tuesday (ordinal 2) `08:00–10:00`. -/
def tuesdayEarly : Meeting :=
  { time_start := t8h, time_end := t10h, days_of_week := 2,
    date_start := 2, date_end := 2 }

/-- C3 witness: two meetings on disjoint weekdays (Monday and Tuesday): every
bucket holds at most one meeting, so the schedule is valid. -/
theorem meetings_are_time_valid_singleton_buckets_witness :
    meetings_are_time_valid [mondayLate, tuesdayEarly] = .ok (true, none) :=
  meetings_are_time_valid_singleton_buckets [mondayLate, tuesdayEarly]
    (by decide)

/-! ### Claims C8/C9: the preference scorer -/

theorem ok_bind {ε α β : Type} (a : α) (f : α → Except ε β) :
    (Except.ok a >>= f) = f a := rfl

/-- The gate of the `available_times` branch: configured windows and a
positive weight (the multiplier bump requires nothing more). -/
def availConfigured (self : CourseOptimizerCriteria) : Prop :=
  self.available_times ≠ [] ∧ 0 < self.available_times_weight

instance (self : CourseOptimizerCriteria) : Decidable (availConfigured self) := by
  unfold availConfigured; infer_instance

/-- The gate of the `is_virtual` contribution: preference set with positive
weight and matching the course. -/
def virtualMatched (self : CourseOptimizerCriteria) (course : Course) : Prop :=
  self.is_virtual.isSome ∧ 0 < self.is_virtual_weight ∧
    self.is_virtual = some course.is_virtual

instance (self : CourseOptimizerCriteria) (course : Course) :
    Decidable (virtualMatched self course) := by
  unfold virtualMatched; infer_instance

/-- C8 (amended): whenever the instructor-rating, open-seats and class-size
criteria are inactive (activating any of them makes `course_eval` raise
`AttributeError`, since it reads `course.instructors` /
`course.maximum_enrollment` / `course.current_enrollment`, none of which
exist on `Course`), the score is `running_total × multiplier` with the
multiplier starting at `1.0` and gaining `+0.25` when the time-window
criterion is merely *configured* (nonempty windows, positive weight —
regardless of whether any window matches) and `+0.25` when the virtual
criterion is satisfied; the time-window total scales per matching pair with
that meeting's occurrence count, the virtual contribution is
`10 × course occurrence count × weight`. -/
theorem course_eval_formula (self : CourseOptimizerCriteria) (course : Course)
    (hprof : ¬ (self.high_prof_rating.isSome ∧
      0 < self.high_prof_rating_weight ∧ self.high_prof_rating = some true))
    (hseats : ¬ (self.min_seats_open.isSome ∧ 0 < self.min_seats_open_weight))
    (hcap : ¬ ((self.max_capacity.map (fun c => decide (0 < c))).getD false
      = true))
    (ra : ℚ)
    (hra : availTimesRating self.available_times course.class_time
      self.available_times_weight = .ok ra)
    (n : ℤ) (hn : course.numActualMeetings = .ok n) :
    course_eval self course = .ok
      (((if availConfigured self then ra else 0) +
        (if virtualMatched self course then
          10 * (n : ℚ) * self.is_virtual_weight else 0)) *
        (1 + (if availConfigured self then (1 : ℚ)/4 else 0) +
          (if virtualMatched self course then (1 : ℚ)/4 else 0))) := by
  unfold course_eval
  rw [hra, hn]
  simp only [ok_bind, pure_bind, if_neg hprof, if_neg hseats, if_neg hcap]
  by_cases hav : self.available_times ≠ [] ∧ 0 < self.available_times_weight
  · by_cases h1 : self.is_virtual.isSome ∧ 0 < self.is_virtual_weight
    · by_cases h3 : self.is_virtual = some course.is_virtual
      · simp only [if_pos hav, if_pos h1, if_pos h3, pure_bind, ok_bind,
          if_pos (show availConfigured self from hav),
          if_pos (show virtualMatched self course from ⟨h1.1, h1.2, h3⟩)]
        congr 1
        dsimp only
        ring
      · simp only [if_pos hav, if_pos h1, if_neg h3, pure_bind, ok_bind,
          if_pos (show availConfigured self from hav),
          if_neg (show ¬ virtualMatched self course from fun hm => h3 hm.2.2)]
        congr 1
        dsimp only
        ring
    · simp only [if_pos hav, if_neg h1, pure_bind, ok_bind,
        if_pos (show availConfigured self from hav),
        if_neg (show ¬ virtualMatched self course from
          fun hm => h1 ⟨hm.1, hm.2.1⟩)]
      congr 1
      dsimp only
      ring
  · by_cases h1 : self.is_virtual.isSome ∧ 0 < self.is_virtual_weight
    · by_cases h3 : self.is_virtual = some course.is_virtual
      · simp only [if_neg hav, if_pos h1, if_pos h3, pure_bind, ok_bind,
          if_neg (show ¬ availConfigured self from hav),
          if_pos (show virtualMatched self course from ⟨h1.1, h1.2, h3⟩)]
        congr 1
        dsimp only
        ring
      · simp only [if_neg hav, if_pos h1, if_neg h3, pure_bind, ok_bind,
          if_neg (show ¬ availConfigured self from hav),
          if_neg (show ¬ virtualMatched self course from fun hm => h3 hm.2.2)]
        congr 1
        dsimp only
        ring
    · simp only [if_neg hav, if_neg h1, pure_bind, ok_bind,
        if_neg (show ¬ availConfigured self from hav),
        if_neg (show ¬ virtualMatched self course from
          fun hm => h1 ⟨hm.1, hm.2.1⟩)]
      congr 1
      dsimp only
      ring

/-- A virtual course with one non-repeating meeting (`mondayLate`). -/
def virtualCourse : Course :=
  { fac := "CS", uid := "1000U", crn := 10001, class_type := "Lecture",
    title := "Demo", courseSection := none, class_time := [mondayLate],
    is_linked := false, link_tag := none, seats_filled := 0,
    max_capacity := 100, instructor := none, instructor_email := none,
    instructor_rating := none, is_virtual := true, restrictions := none }

/-- Criteria with a configured-but-unsatisfied time window (`08:00–09:00`
against the `10:30–11:00` meeting) and a satisfied virtual preference, both
with weight 1. -/
def bumpCriteria : CourseOptimizerCriteria :=
  { available_times := [(1, t8h, t9h)], available_times_weight := 1,
    is_virtual := some true, is_virtual_weight := 1 }

/-- C8 witness: the amended formula evaluated on `bumpCriteria` and
`virtualCourse`. -/
theorem course_eval_formula_witness :
    course_eval bumpCriteria virtualCourse = .ok
      (((if availConfigured bumpCriteria then (0 : ℚ) else 0) +
        (if virtualMatched bumpCriteria virtualCourse then
          10 * ((1 : ℤ) : ℚ) * bumpCriteria.is_virtual_weight else 0)) *
        (1 + (if availConfigured bumpCriteria then (1 : ℚ)/4 else 0) +
          (if virtualMatched bumpCriteria virtualCourse then (1 : ℚ)/4
            else 0))) :=
  course_eval_formula bumpCriteria virtualCourse (by decide) (by decide)
    (by decide) 0 rfl 1 rfl

/-- C8 counterexample: the claim states that the multiplier gains `+0.25`
only per *satisfied* criterion.  With a configured but unsatisfied time
window and a satisfied virtual preference, the code returns `15`
(`10 × (1 + 0.25 + 0.25)`: the unsatisfied window still bumps the
multiplier), while the claimed formula yields `12.5` (`10 × 1.25`). -/
theorem course_eval_config_bump_counterexample :
    course_eval bumpCriteria virtualCourse = .ok 15 ∧
    spec_score bumpCriteria virtualCourse = .ok (25/2) ∧
    (15 : ℚ) ≠ 25/2 := by
  refine ⟨?_, ?_, by norm_num⟩
  · rw [course_eval_formula bumpCriteria virtualCourse (by decide) (by decide)
      (by decide) 0 rfl 1 rfl]
    rw [if_pos (show availConfigured bumpCriteria from ⟨by decide, by decide⟩),
      if_pos (show availConfigured bumpCriteria from ⟨by decide, by decide⟩),
      if_pos (show virtualMatched bumpCriteria virtualCourse from
        ⟨rfl, by decide, rfl⟩),
      if_pos (show virtualMatched bumpCriteria virtualCourse from
        ⟨rfl, by decide, rfl⟩)]
    congr 1
    norm_num [bumpCriteria]
  · unfold spec_score
    rw [show specAvailSatisfied bumpCriteria virtualCourse = false from rfl]
    rw [show specVirtualSatisfied bumpCriteria virtualCourse = true from rfl]
    rw [show specProfSatisfied bumpCriteria = false from rfl]
    rw [show specSeatsSatisfied bumpCriteria virtualCourse = false from rfl]
    rw [show specCapacitySatisfied bumpCriteria virtualCourse = false from rfl]
    rw [show virtualCourse.numActualMeetings = Except.ok 1 from rfl]
    simp only [Bool.false_eq_true, if_false, if_true, pure_bind, ok_bind]
    congr 1
    norm_num [bumpCriteria]

/-- C9: criteria whose only difference is a `max_capacity` value carried with
weight `0`. -/
def zeroWeightCapCriteria : CourseOptimizerCriteria :=
  { is_virtual := some true, is_virtual_weight := 1,
    max_capacity := some 50, max_capacity_weight := 0 }

def noCapCriteria : CourseOptimizerCriteria :=
  { is_virtual := some true, is_virtual_weight := 1 }

/-- C9: setting the class-size criterion with weight `0` must leave the score
unchanged, but the code gates that branch on `self.max_capacity > 0` instead
of its weight and then reads the nonexistent `course.maximum_enrollment`:
with the zero-weight criterion set the evaluation raises `AttributeError`,
while with the criterion absent it returns `12.5`. -/
theorem course_eval_zero_weight_capacity_changes_result :
    zeroWeightCapCriteria.max_capacity_weight = 0 ∧
    course_eval zeroWeightCapCriteria virtualCourse
      = .error .attributeError ∧
    course_eval noCapCriteria virtualCourse = .ok (25/2) := by
  refine ⟨rfl, rfl, ?_⟩
  rw [course_eval_formula noCapCriteria virtualCourse (by decide) (by decide)
    (by decide) 0 rfl 1 rfl]
  rw [if_neg (show ¬ availConfigured noCapCriteria from fun h => h.1 rfl),
    if_neg (show ¬ availConfigured noCapCriteria from fun h => h.1 rfl),
    if_pos (show virtualMatched noCapCriteria virtualCourse from
      ⟨rfl, by decide, rfl⟩),
    if_pos (show virtualMatched noCapCriteria virtualCourse from
      ⟨rfl, by decide, rfl⟩)]
  congr 1
  norm_num [noCapCriteria]

/-! ### Claim C5: symmetry of pairwise conflict detection -/

theorem timeConflictCond_comm (a b : Meeting) :
    timeConflictCond a b ↔ timeConflictCond b a := by
  unfold timeConflictCond
  tauto

theorem isValidDateIntersection_comm (mt_1 mt_2 : Meeting) (a1s a2s : ℤ)
    (x y : ℚ) :
    isValidDateIntersection mt_1 mt_2 a1s a2s x y =
      isValidDateIntersection mt_2 mt_1 a2s a1s x y := by
  unfold isValidDateIntersection
  cases h1 : intersectionTs mt_1.repeat_timedelta_days a1s x <;>
    cases h2 : intersectionTs mt_2.repeat_timedelta_days a2s x <;>
    dsimp only
  exact decide_eq_decide.mpr
    ⟨fun ⟨hy, he⟩ => ⟨hy.trans he, he.symm⟩,
     fun ⟨hy, he⟩ => ⟨hy.trans he, he.symm⟩⟩

theorem lineTest_comm (mt_1 mt_2 : Meeting) (a1s a2s : ℤ)
    (x1 x2 x3 x4 y1 y2 y3 y4 : ℤ) :
    lineTest mt_1 mt_2 a1s a2s x1 x2 x3 x4 y1 y2 y3 y4 =
      lineTest mt_2 mt_1 a2s a1s x3 x4 x1 x2 y3 y4 y1 y2 := by
  unfold lineTest
  by_cases hz : x2 - x1 = 0 ∨ x4 - x3 = 0
  · rw [if_pos hz, if_pos (Or.symm hz)]
  · rw [if_neg hz, if_neg (show ¬ (x4 - x3 = 0 ∨ x2 - x1 = 0) from
      fun h => hz (Or.symm h))]
    dsimp only
    generalize hM1 : ((y2 - y1 : ℤ) : ℚ) / ((x2 - x1 : ℤ) : ℚ) = m1
    generalize hM2 : ((y4 - y3 : ℤ) : ℚ) / ((x4 - x3 : ℤ) : ℚ) = m2
    generalize hB1 : ((y1 : ℤ) : ℚ) - m1 * ((x1 : ℤ) : ℚ) = b1
    generalize hB2 : ((y3 : ℤ) : ℚ) - m2 * ((x3 : ℤ) : ℚ) = b2
    by_cases hm : m1 = m2
    · rw [if_pos hm, if_pos hm.symm]
      by_cases hb : b1 = b2
      · rw [if_pos hb, if_pos hb.symm]
      · rw [if_neg hb, if_neg (show ¬ b2 = b1 from fun h => hb h.symm)]
    · rw [if_neg hm, if_neg (show ¬ m2 = m1 from fun h => hm h.symm)]
      have hx : (b1 - b2) / (m2 - m1) = (b2 - b1) / (m1 - m2) := by
        rw [← neg_sub b2 b1, ← neg_sub m1 m2, neg_div_neg_eq]
      rw [hx]
      generalize hX : (b2 - b1) / (m1 - m2) = x
      by_cases hr : x < ((min x1 x2 : ℤ) : ℚ) ∨ x > ((max x1 x2 : ℤ) : ℚ) ∨
          x < ((min x3 x4 : ℤ) : ℚ) ∨ x > ((max x3 x4 : ℤ) : ℚ)
      · rw [if_neg (not_not_intro hr), if_neg (not_not_intro
          (show x < ((min x3 x4 : ℤ) : ℚ) ∨ x > ((max x3 x4 : ℤ) : ℚ) ∨
            x < ((min x1 x2 : ℤ) : ℚ) ∨ x > ((max x1 x2 : ℤ) : ℚ) from
            by tauto))]
      · rw [if_pos hr, if_pos (show ¬ (x < ((min x3 x4 : ℤ) : ℚ) ∨
            x > ((max x3 x4 : ℤ) : ℚ) ∨ x < ((min x1 x2 : ℤ) : ℚ) ∨
            x > ((max x1 x2 : ℤ) : ℚ)) from fun h => hr (by tauto))]
        have hy : ((y3 : ℤ) : ℚ) + m2 * (x - ((x3 : ℤ) : ℚ)) =
            ((y1 : ℤ) : ℚ) + m1 * (x - ((x1 : ℤ) : ℚ)) := by
          have hmne : m1 - m2 ≠ 0 := sub_ne_zero.mpr hm
          have hxx : x * (m1 - m2) = b2 - b1 := by
            rw [← hX]
            field_simp
          have h1 : ((y1 : ℤ) : ℚ) = b1 + m1 * ((x1 : ℤ) : ℚ) := by
            rw [← hB1]; ring
          have h3 : ((y3 : ℤ) : ℚ) = b2 + m2 * ((x3 : ℤ) : ℚ) := by
            rw [← hB2]; ring
          rw [h1, h3]
          linear_combination -hxx
        rw [hy, isValidDateIntersection_comm mt_1 mt_2 a1s a2s]

theorem conflictCore_comm (mt_1 mt_2 : Meeting) (a1s a1e a2s a2e : ℤ) :
    conflictCore mt_1 mt_2 a1s a1e a2s a2e =
      conflictCore mt_2 mt_1 a2s a2e a1s a1e := by
  unfold conflictCore
  dsimp only
  by_cases h0 : mt_1.repeat_timedelta_days = 0 ∧ mt_2.repeat_timedelta_days = 0
  · rw [if_pos h0, if_pos (show mt_2.repeat_timedelta_days = 0 ∧
      mt_1.repeat_timedelta_days = 0 from ⟨h0.2, h0.1⟩)]
    by_cases hc : dateTs a1s = dateTs a1e ∧ dateTs a1e = dateTs a2s ∧
        dateTs a2s = dateTs a2e
    · obtain ⟨hc1, hc2, hc3⟩ := hc
      rw [if_pos (show dateTs a1s = dateTs a1e ∧ dateTs a1e = dateTs a2s ∧
          dateTs a2s = dateTs a2e from ⟨hc1, hc2, hc3⟩),
        if_pos (show dateTs a2s = dateTs a2e ∧ dateTs a2e = dateTs a1s ∧
          dateTs a1s = dateTs a1e from
          ⟨hc3, (hc1.trans (hc2.trans hc3)).symm, hc1⟩)]
      have hss : a1s = a2s := (dateTs_inj _ _).mp (hc1.trans hc2)
      rw [hss, max_comm]
    · rw [if_neg hc, if_neg (show ¬ (dateTs a2s = dateTs a2e ∧
          dateTs a2e = dateTs a1s ∧ dateTs a1s = dateTs a1e) from
        fun h => hc ⟨h.2.2,
          h.2.2.symm.trans (h.2.1.symm.trans h.1.symm), h.1⟩)]
  · rw [if_neg h0, if_neg (show ¬ (mt_2.repeat_timedelta_days = 0 ∧
      mt_1.repeat_timedelta_days = 0) from fun h => h0 ⟨h.2, h.1⟩)]
    by_cases g1 : mt_1.repeat_timedelta_days = 0 ∧ dateTs a1s = dateTs a1e
    · have hg2 : ¬ (mt_2.repeat_timedelta_days = 0 ∧ dateTs a2s = dateTs a2e) :=
        fun g2 => h0 ⟨g1.1, g2.1⟩
      rw [if_pos g1, if_neg hg2, if_pos g1]
      exact lineTest_comm mt_1 mt_2 a1s a2s 0 (max 0 (a2e - a2s)) 0
        (a2e - a2s) (dateTs a1s) (dateTs a1e) (dateTs a2s) (dateTs a2e)
    · rw [if_neg g1]
      by_cases g2 : mt_2.repeat_timedelta_days = 0 ∧ dateTs a2s = dateTs a2e
      · rw [if_neg g1, if_pos g2, if_pos g2]
        exact lineTest_comm mt_1 mt_2 a1s a2s 0 (a1e - a1s) 0
          (max 0 (a1e - a1s)) (dateTs a1s) (dateTs a1e) (dateTs a2s)
          (dateTs a2e)
      · rw [if_neg g2, if_neg g2, if_neg g1]
        exact lineTest_comm mt_1 mt_2 a1s a2s 0 (a1e - a1s) 0 (a2e - a2s)
          (dateTs a1s) (dateTs a1e) (dateTs a2s) (dateTs a2e)

/-- C5: pairwise conflict detection is symmetric, in the detailed variant
(same boolean and same reported datetime — and, when an exception occurs, the
same exception) and in the plain boolean variant. -/
theorem meeting_conflict_symm (a b : Meeting) :
    meeting_conflict a b = meeting_conflict b a ∧
    meetingConflictB a b = meetingConflictB b a := by
  have hmain : meeting_conflict a b = meeting_conflict b a := by
    unfold meeting_conflict
    by_cases ht : timeConflictCond a b
    · rw [if_neg (by simpa using ht),
        if_neg (by simpa using (timeConflictCond_comm a b).mp ht)]
      rcases h1 : a.getActualDateStart? with _ | s1 <;>
        rcases h2 : a.getActualDateEnd? with _ | e1 <;>
        rcases h3 : b.getActualDateStart? with _ | s2 <;>
        rcases h4 : b.getActualDateEnd? with _ | e2
      all_goals dsimp only
      all_goals first
        | rfl
        | exact conflictCore_comm a b s1 e1 s2 e2
    · rw [if_pos (by simpa using ht), if_pos (by
        simpa using fun h' => ht ((timeConflictCond_comm a b).mpr h'))]
  exact ⟨hmain, by unfold meetingConflictB; rw [hmain]⟩

end PyCore
